import Mathlib

/-!
Verification of `src/disable_services.py`: a script that stops and disables a
fixed list of systemd services when they are installed.

The script is shallowly embedded below.  External behaviour (the `subprocess`
machinery and the availability of the `systemctl` binary) is abstracted as an
environment `Env`; every function of the script becomes a pure Lean function
over that environment, recording the subprocess invocations it makes and the
lines it prints.  A raised Python exception is modelled as `Except.error` with
the exception message; `raise SystemExit(1)` and an uncaught exception both
map to a nonzero process exit status via `processExitCode`.
-/

namespace DisableServices

/-- Whitespace test used by Python `str.split()` / `str.strip()`. -/
def isWS (c : Char) : Bool := c.isWhitespace

/-- Python `str.strip()` on a list of characters: drop whitespace at both ends. -/
def pyStripData (l : List Char) : List Char :=
  ((l.dropWhile isWS).reverse.dropWhile isWS).reverse

/-- Python `str.strip()`. -/
def pyStrip (s : String) : String := ⟨pyStripData s.data⟩

/-- Helper for `pySplit`: accumulate the current (reversed) token while walking
the characters; whitespace ends a token, empty tokens are dropped. -/
def splitWSAux : List Char → List Char → List String
  | [], acc => if acc.isEmpty then [] else [⟨acc.reverse⟩]
  | c :: cs, acc =>
    if isWS c then
      if acc.isEmpty then splitWSAux cs []
      else ⟨acc.reverse⟩ :: splitWSAux cs []
    else splitWSAux cs (c :: acc)

/-- Python `str.split()` with no argument: whitespace-delimited tokens, empty
tokens discarded (so a whitespace-only string splits to `[]`). -/
def pySplit (s : String) : List String := splitWSAux s.data []

/-- Helper for `pySplitlines`: split at every newline character; the final
(possibly empty) accumulator is kept only when nonempty, matching Python's
`str.splitlines()` which produces no trailing empty line. -/
def splitlinesAux : List Char → List Char → List String
  | [], acc => if acc.isEmpty then [] else [⟨acc.reverse⟩]
  | c :: cs, acc =>
    if c = '\n' then String.mk acc.reverse :: splitlinesAux cs []
    else splitlinesAux cs (c :: acc)

/-- Python `str.splitlines()` (newline-separated, as in `systemctl` output). -/
def pySplitlines (s : String) : List String := splitlinesAux s.data []

/-- Python `a or b` on strings: `b` when `a` is empty (falsy), else `a`. -/
def pyOr (a b : String) : String := if a = "" then b else a

/-- A completed `subprocess.run` call (`check=False`): exit code and the raw
captured `stdout` / `stderr` texts. -/
structure Completed where
  returncode : Int
  stdout : String
  stderr : String

/-- Outcome of one use of the subprocess machinery: the child process completes,
or the machinery itself raises an exception carrying a message. -/
inductive SubprocOutcome where
  | completed (r : Completed)
  | raised (msg : String)

/-- The external world the script interacts with: whether `which("systemctl")`
finds the binary, the effective uid (`os.geteuid()`), and what the subprocess
machinery does for each command string and `use_shell` flag. -/
structure Env where
  systemctlAvailable : Bool
  euid : Nat
  subproc : String → Bool → SubprocOutcome

/-- `run_command(cmd, use_shell)`: run the command and return
`(returncode, stdout.strip(), stderr.strip())`; every exception from the
subprocess machinery is caught and turned into `(1, "", str(e))`. -/
def run_command (env : Env) (cmd : String) (use_shell : Bool) : Int × String × String :=
  match env.subproc cmd use_shell with
  | SubprocOutcome.completed r => (r.returncode, pyStrip r.stdout, pyStrip r.stderr)
  | SubprocOutcome.raised e => (1, "", e)

/-- `have_systemctl()`: `which("systemctl") is not None`. -/
def have_systemctl (env : Env) : Bool := env.systemctlAvailable

/-- The command string `service_exists` runs (with `use_shell=True`). -/
def listUnitFilesCmd : String :=
  "systemctl list-unit-files --type=service --all --no-legend --no-pager"

/-- The `for line in out.splitlines()` loop of `service_exists`: take
`line.split()[0].strip()` and compare with the target; `line.split()[0]` on a
whitespace-only line raises `IndexError`. -/
def scanForTarget (target : String) : List String → Except String Bool
  | [] => Except.ok false
  | line :: rest =>
    match pySplit line with
    | [] => Except.error "IndexError: list index out of range"
    | tok :: _ =>
      if pyStrip tok = target then Except.ok true else scanForTarget target rest

/-- `service_exists(svc)`: list all unit files and look for an exact
`<svc>.service` first-token match; a failed or empty listing yields `False`.
`Except.error` models the uncaught `IndexError` on a whitespace-only line. -/
def service_exists (env : Env) (svc : String) : Except String Bool :=
  if (run_command env listUnitFilesCmd true).1 ≠ 0 ∨
      (run_command env listUnitFilesCmd true).2.1 = "" then
    Except.ok false
  else
    scanForTarget (svc ++ ".service") (pySplitlines (run_command env listUnitFilesCmd true).2.1)

/-- The static `SERVICES` list of the script. -/
def SERVICES : List String :=
  ["vsftpd", "proftpd", "ssh", "postfix", "apache2", "rpcbind", "exim4",
   "avahi-daemon", "ModemManager"]

/-- The `sudo` string of `main`: `"sudo "` when not running as root. -/
def sudoOf (env : Env) : String := if env.euid ≠ 0 then "sudo " else ""

/-- The stop command `main` runs for a service. -/
def stopCmd (su svc : String) : String := su ++ "systemctl stop " ++ svc

/-- The disable command `main` runs for a service. -/
def disableCmd (su svc : String) : String := su ++ "systemctl disable " ++ svc

/-- Console line: header printed at the top of each loop iteration. -/
def checkingMsg (svc : String) : String := "\n🔍 Checking status of " ++ svc ++ "..."

/-- Console line: service not found. -/
def notFoundMsg (svc : String) : String :=
  "⚠️  " ++ svc ++ " not found (not installed) or unit file missing."

/-- Console line: service found. -/
def existsMsg (svc : String) : String :=
  "✅ " ++ svc ++ " exists. Stopping and disabling it..."

/-- Console line: stop succeeded. -/
def stoppedMsg (svc : String) : String := "🛑 Stopped " ++ svc ++ "."

/-- Console line: stop failed, with `err or out` detail. -/
def couldNotStopMsg (svc detail : String) : String :=
  "ℹ️  Could not stop " ++ svc ++ ": " ++ detail

/-- Console line: disable succeeded. -/
def disabledMsg (svc : String) : String := "🚫 Disabled " ++ svc ++ "."

/-- Console line: disable failed, with `err or out` detail. -/
def couldNotDisableMsg (svc detail : String) : String :=
  "ℹ️  Could not disable " ++ svc ++ ": " ++ detail

/-- Console line printed after the loop. -/
def allProcessedMsg : String := "\n✅ All specified services have been processed."

/-- Console line printed when `systemctl` is missing. -/
def noSystemctlMsg : String :=
  "❌ systemctl not found. This script requires systemd (Ubuntu default)."

/-- The line `main` prints after the stop attempt, from the `(code, out, err)`
triple returned by `run_command`. -/
def stopReport (svc : String) (r : Int × String × String) : String :=
  if r.1 = 0 then stoppedMsg svc else couldNotStopMsg svc (pyOr r.2.2 r.2.1)

/-- The line `main` prints after the disable attempt. -/
def disableReport (svc : String) (r : Int × String × String) : String :=
  if r.1 = 0 then disabledMsg svc else couldNotDisableMsg svc (pyOr r.2.2 r.2.1)

/-- Result of one iteration of `main`'s loop: whether it finished or raised,
the subprocess invocations it made (command string, `use_shell` flag), and the
lines it printed. -/
structure StepOut where
  outcome : Except String Unit
  invocations : List (String × Bool)
  prints : List String

/-- One iteration of `main`'s `for svc in SERVICES` loop.  `service_exists`
always runs the listing command; when it returns `True` the iteration also runs
the stop and then the disable command, printing a success or failure line after
each regardless of its exit code. -/
def stepService (env : Env) (su svc : String) : StepOut :=
  match service_exists env svc with
  | Except.error e =>
    { outcome := Except.error e,
      invocations := [(listUnitFilesCmd, true)],
      prints := [checkingMsg svc] }
  | Except.ok false =>
    { outcome := Except.ok (),
      invocations := [(listUnitFilesCmd, true)],
      prints := [checkingMsg svc, notFoundMsg svc] }
  | Except.ok true =>
    { outcome := Except.ok (),
      invocations := [(listUnitFilesCmd, true),
                      (stopCmd su svc, false),
                      (disableCmd su svc, false)],
      prints := [checkingMsg svc, existsMsg svc,
                 stopReport svc (run_command env (stopCmd su svc) false),
                 disableReport svc (run_command env (disableCmd su svc) false)] }

/-- How the `main()` process ends: normal completion (exit 0),
`raise SystemExit(code)`, or an uncaught exception. -/
inductive MainOutcome where
  | exitZero
  | systemExit (code : Nat)
  | uncaught (msg : String)
deriving DecidableEq

/-- A whole run of `main`: how it ended, all subprocess invocations, and all
printed lines, in order. -/
structure RunOut where
  outcome : MainOutcome
  invocations : List (String × Bool)
  prints : List String

/-- `main`'s loop over the remaining service names.  An iteration that raises
aborts the run (uncaught exception); after the last iteration the final
summary line is printed and the process exits zero. -/
def mainLoop (env : Env) (su : String) : List String → RunOut
  | [] =>
    { outcome := MainOutcome.exitZero, invocations := [], prints := [allProcessedMsg] }
  | svc :: rest =>
    match (stepService env su svc).outcome with
    | Except.error e =>
      { outcome := MainOutcome.uncaught e,
        invocations := (stepService env su svc).invocations,
        prints := (stepService env su svc).prints }
    | Except.ok _ =>
      { outcome := (mainLoop env su rest).outcome,
        invocations := (stepService env su svc).invocations ++ (mainLoop env su rest).invocations,
        prints := (stepService env su svc).prints ++ (mainLoop env su rest).prints }

/-- `main()`: bail out with `SystemExit(1)` when `systemctl` is missing,
otherwise process every name in `SERVICES` in order. -/
def main (env : Env) : RunOut :=
  if have_systemctl env then mainLoop env (sudoOf env) SERVICES
  else
    { outcome := MainOutcome.systemExit 1,
      invocations := [],
      prints := [noSystemctlMsg] }

/-- The OS-level exit status of the Python process for each way `main` can
end: an uncaught exception makes the interpreter exit with status 1. -/
def processExitCode : MainOutcome → Nat
  | MainOutcome.exitZero => 0
  | MainOutcome.systemExit c => c
  | MainOutcome.uncaught _ => 1

/-- First whitespace-delimited token of a line, stripped — the value
`line.split()[0].strip()` would produce, as an `Option` (used only to state
properties of the listing output). -/
def firstToken (line : String) : Option String := (pySplit line).head?.map pyStrip

/-- The listing output is well formed: the listing failed, or was empty, or no
line of its stripped stdout is whitespace-only.  Exactly the runs on which
`service_exists` cannot raise `IndexError`. -/
def listingWellFormed (env : Env) : Prop :=
  (run_command env listUnitFilesCmd true).1 ≠ 0 ∨
  (run_command env listUnitFilesCmd true).2.1 = "" ∨
  ∀ line ∈ pySplitlines (run_command env listUnitFilesCmd true).2.1, pySplit line ≠ []

instance listingWellFormedDec (env : Env) : Decidable (listingWellFormed env) := by
  unfold listingWellFormed; infer_instance

instance exceptDecEq {ε α : Type} [DecidableEq ε] [DecidableEq α] :
    DecidableEq (Except ε α) := fun a b =>
  match a, b with
  | Except.error e, Except.error f =>
    if h : e = f then isTrue (by rw [h]) else isFalse (by simp [h])
  | Except.error _, Except.ok _ => isFalse (by simp)
  | Except.ok _, Except.error _ => isFalse (by simp)
  | Except.ok x, Except.ok y =>
    if h : x = y then isTrue (by rw [h]) else isFalse (by simp [h])

/-- Number of occurrences of an invocation in a trace. -/
def countOcc (x : String × Bool) : List (String × Bool) → Nat
  | [] => 0
  | y :: ys => (if y = x then 1 else 0) + countOcc x ys

/-- Environment in which every command completes with exit code 1 and empty
output: `systemctl` is present but the listing always fails. -/
def envAllFail : Env :=
  { systemctlAvailable := true, euid := 0,
    subproc := fun _ _ => SubprocOutcome.completed ⟨1, "", ""⟩ }

/-- Environment in which the listing reports exactly one installed service
(`vsftpd`) and every other command fails with exit code 1. -/
def envOneService : Env :=
  { systemctlAvailable := true, euid := 0,
    subproc := fun cmd _ =>
      if cmd = listUnitFilesCmd then SubprocOutcome.completed ⟨0, "vsftpd.service enabled", ""⟩
      else SubprocOutcome.completed ⟨1, "", ""⟩ }

/-- Environment whose listing contains `ssh.service` on the first line but a
whitespace-only line after it: the check for `ssh` succeeds, yet the run
crashes while checking `vsftpd` (the first name in `SERVICES`). -/
def envSkip : Env :=
  { systemctlAvailable := true, euid := 0,
    subproc := fun _ _ => SubprocOutcome.completed ⟨0, "ssh.service enabled\n\nx", ""⟩ }

/-- Environment whose listing succeeds with a whitespace-only internal line:
`service_exists` raises `IndexError` on it. -/
def envCrash : Env :=
  { systemctlAvailable := true, euid := 0,
    subproc := fun _ _ => SubprocOutcome.completed ⟨0, "x\n\ny", ""⟩ }

/-- Environment whose listing mentions `ssh.service` only after a
whitespace-only line. -/
def envLateMatch : Env :=
  { systemctlAvailable := true, euid := 0,
    subproc := fun _ _ => SubprocOutcome.completed ⟨0, "a b\n\nssh.service enabled", ""⟩ }

/-- Environment in which the listing reports `vsftpd` installed and the stop
and disable commands fail with exit code 1 and stderr `boom`. -/
def envStopFail : Env :=
  { systemctlAvailable := true, euid := 0,
    subproc := fun cmd _ =>
      if cmd = listUnitFilesCmd then SubprocOutcome.completed ⟨0, "vsftpd.service enabled", ""⟩
      else SubprocOutcome.completed ⟨1, "", "boom"⟩ }

/-- Environment in which the subprocess machinery always raises. -/
def envRaise : Env :=
  { systemctlAvailable := true, euid := 0,
    subproc := fun _ _ => SubprocOutcome.raised "boom" }

/-- String append acts as append on the underlying character lists. -/
theorem strData_append (a b : String) : (a ++ b).data = a.data ++ b.data := rfl

/-- Left cancellation for string append. -/
theorem strAppend_left_cancel {a b c : String} (h : a ++ b = a ++ c) : b = c := by
  apply String.ext
  have hd : a.data ++ b.data = a.data ++ c.data := by
    have := congrArg String.data h
    simpa [strData_append] using this
  exact List.append_cancel_left hd

/-- Two appends with a common length-`n` window are equal on that window. -/
theorem take_of_append_eq (n : Nat) {l₁ l₂ s t : List Char}
    (h : l₁ ++ s = l₂ ++ t) (h₁ : n ≤ l₁.length) (h₂ : n ≤ l₂.length) :
    l₁.take n = l₂.take n := by
  have := congrArg (List.take n) h
  rwa [List.take_append_of_le_length h₁, List.take_append_of_le_length h₂] at this

/-- String append is associative. -/
theorem strAppend_assoc (a b c : String) : (a ++ b) ++ c = a ++ (b ++ c) := by
  apply String.ext
  simp [strData_append, List.append_assoc]

/-- The stop command determines the service name. -/
theorem stopCmd_inj {su s t : String} (h : stopCmd su s = stopCmd su t) : s = t := by
  unfold stopCmd at h
  exact strAppend_left_cancel h

/-- The disable command determines the service name. -/
theorem disableCmd_inj {su s t : String} (h : disableCmd su s = disableCmd su t) : s = t := by
  unfold disableCmd at h
  exact strAppend_left_cancel h

/-- A stop command is never equal to a disable command (they differ at the
subcommand, eleven characters after the shared `sudo` part). -/
theorem stopCmd_ne_disableCmd (su s t : String) : stopCmd su s ≠ disableCmd su t := by
  intro h
  rw [stopCmd, disableCmd, strAppend_assoc, strAppend_assoc] at h
  have h1 : "systemctl stop " ++ s = "systemctl disable " ++ t :=
    strAppend_left_cancel h
  have hd : "systemctl stop ".data ++ s.data = "systemctl disable ".data ++ t.data :=
    congrArg String.data h1
  have h2 := take_of_append_eq 11 hd (by decide) (by decide)
  exact absurd h2 (by decide)

/-- Counting distributes over trace concatenation. -/
theorem countOcc_append (x : String × Bool) (a b : List (String × Bool)) :
    countOcc x (a ++ b) = countOcc x a + countOcc x b := by
  induction a with
  | nil => simp [countOcc]
  | cons y ys ih => simp [countOcc, ih]; omega

/-- An invocation with zero occurrences is not in the trace. -/
theorem not_mem_of_countOcc_eq_zero {x : String × Bool} :
    ∀ {l : List (String × Bool)}, countOcc x l = 0 → x ∉ l := by
  intro l
  induction l with
  | nil => intro _ h; cases h
  | cons y ys ih =>
    intro h hmem
    rcases List.mem_cons.mp hmem with h1 | h2
    · subst h1
      simp [countOcc] at h
    · unfold countOcc at h
      exact ih (by omega) h2

/-- Counting over a flattened trace is the sum of the per-block counts. -/
theorem countOcc_flatten (x : String × Bool) (L : List (List (String × Bool))) :
    countOcc x L.flatten = (L.map (countOcc x)).sum := by
  induction L with
  | nil => simp [countOcc]
  | cons a L ih => simp [List.flatten_cons, countOcc_append, ih]

/-- A sum of pointwise-zero terms over a list is zero. -/
theorem map_sum_eq_zero {α : Type} {l : List α} {g : α → Nat}
    (h : ∀ s ∈ l, g s = 0) : (l.map g).sum = 0 := by
  induction l with
  | nil => simp
  | cons s rest ih =>
    simp [h s (List.mem_cons_self s rest), ih fun x hx => h x (List.mem_cons_of_mem s hx)]

/-- A sum over a duplicate-free list whose terms vanish except at one member,
where the term is `1`, is `1`. -/
theorem map_sum_eq_one {α : Type} [DecidableEq α] {l : List α} {g : α → Nat} {a : α}
    (hnd : l.Nodup) (hm : a ∈ l) (hself : g a = 1)
    (hother : ∀ s ∈ l, s ≠ a → g s = 0) : (l.map g).sum = 1 := by
  induction l with
  | nil => cases hm
  | cons s rest ih =>
    rcases List.nodup_cons.mp hnd with ⟨hs, hrest⟩
    rcases List.mem_cons.mp hm with h1 | h2
    · subst h1
      have hz : (rest.map g).sum = 0 := by
        apply map_sum_eq_zero
        intro x hx
        exact hother x (List.mem_cons_of_mem _ hx) (fun he => hs (he ▸ hx))
      simp [hself, hz]
    · have hne : s ≠ a := fun he => hs (he ▸ h2)
      have h0 : g s = 0 := hother s (List.mem_cons_self s rest) hne
      have ihv := ih hrest h2 fun x hx hxa => hother x (List.mem_cons_of_mem s hx) hxa
      simp [h0, ihv]

/-- A scan that returns `False` examined every line, so every line splits to a
nonempty token list. -/
theorem scanForTarget_false_tokens {t : String} :
    ∀ {ls : List String}, scanForTarget t ls = Except.ok false →
      ∀ l ∈ ls, pySplit l ≠ [] := by
  intro ls
  induction ls with
  | nil => intro _ l hl; cases hl
  | cons line rest ih =>
    intro h l hl
    rcases hsp : pySplit line with _ | ⟨tok, tl⟩
    · rw [scanForTarget, hsp] at h
      cases h
    · simp only [scanForTarget, hsp] at h
      by_cases htok : pyStrip tok = t
      · rw [if_pos htok] at h
        cases h
      · rw [if_neg htok] at h
        rcases List.mem_cons.mp hl with h1 | h2
        · subst h1
          simp [hsp]
        · exact ih h l h2

/-- On lines that all have a first token, the scan cannot raise. -/
theorem scanForTarget_total {t : String} :
    ∀ {ls : List String}, (∀ l ∈ ls, pySplit l ≠ []) →
      ∃ b, scanForTarget t ls = Except.ok b := by
  intro ls
  induction ls with
  | nil => intro _; exact ⟨false, rfl⟩
  | cons line rest ih =>
    intro h
    rcases hsp : pySplit line with _ | ⟨tok, tl⟩
    · exact absurd hsp (h line (List.mem_cons_self line rest))
    · by_cases htok : pyStrip tok = t
      · exact ⟨true, by simp only [scanForTarget, hsp]; rw [if_pos htok]⟩
      · rcases ih (fun l hl => h l (List.mem_cons_of_mem line hl)) with ⟨b, hb⟩
        exact ⟨b, by simp only [scanForTarget, hsp]; rw [if_neg htok]; exact hb⟩

/-- A scan that returns `True` found a line whose stripped first token is the
target, after lines that all had a first token. -/
theorem scanForTarget_true_split {t : String} :
    ∀ {ls : List String}, scanForTarget t ls = Except.ok true →
      ∃ pre line post, ls = pre ++ line :: post ∧
        (∀ l ∈ pre, pySplit l ≠ []) ∧ firstToken line = some t := by
  intro ls
  induction ls with
  | nil => intro h; cases h
  | cons line rest ih =>
    intro h
    rcases hsp : pySplit line with _ | ⟨tok, tl⟩
    · rw [scanForTarget, hsp] at h
      cases h
    · simp only [scanForTarget, hsp] at h
      by_cases htok : pyStrip tok = t
      · refine ⟨[], line, rest, rfl, ?_, ?_⟩
        · intro l hl
          cases hl
        · rw [firstToken, hsp]
          simp [htok]
      · rw [if_neg htok] at h
        rcases ih h with ⟨pre, l0, post, hdec, hpre, hft⟩
        refine ⟨line :: pre, l0, post, by rw [hdec]; rfl, ?_, hft⟩
        intro l hl
        rcases List.mem_cons.mp hl with h1 | h2
        · subst h1; simp [hsp]
        · exact hpre l h2

/-- Converse of `scanForTarget_true_split`: a match with token-bearing lines
before it makes the scan return `True`. -/
theorem scanForTarget_true_of_split {t : String} :
    ∀ (pre : List String) {line : String} (post : List String),
      (∀ l ∈ pre, pySplit l ≠ []) → firstToken line = some t →
      scanForTarget t (pre ++ line :: post) = Except.ok true := by
  intro pre
  induction pre with
  | nil =>
    intro line post _ hft
    rcases hsp : pySplit line with _ | ⟨tok, tl⟩
    · rw [firstToken, hsp] at hft
      cases hft
    · rw [firstToken, hsp] at hft
      simp at hft
      rw [List.nil_append]
      simp only [scanForTarget, hsp]
      rw [if_pos hft]
  | cons p pre ih =>
    intro line post hpre hft
    rcases hsp : pySplit p with _ | ⟨tok, tl⟩
    · exact absurd hsp (hpre p (List.mem_cons_self p pre))
    · rw [List.cons_append]
      simp only [scanForTarget, hsp]
      by_cases htok : pyStrip tok = t
      · rw [if_pos htok]
      · rw [if_neg htok]
        exact ih post (fun l hl => hpre l (List.mem_cons_of_mem p hl)) hft

/-- A failed or empty listing makes `service_exists` return `False`. -/
theorem service_exists_of_fail {env : Env} (svc : String)
    (h : (run_command env listUnitFilesCmd true).1 ≠ 0 ∨
         (run_command env listUnitFilesCmd true).2.1 = "") :
    service_exists env svc = Except.ok false := by
  rw [service_exists, if_pos h]

/-- With a successful nonempty listing, `service_exists` is the scan. -/
theorem service_exists_of_ok {env : Env} (svc : String)
    (h : ¬((run_command env listUnitFilesCmd true).1 ≠ 0 ∨
           (run_command env listUnitFilesCmd true).2.1 = "")) :
    service_exists env svc =
      scanForTarget (svc ++ ".service")
        (pySplitlines (run_command env listUnitFilesCmd true).2.1) := by
  rw [service_exists, if_neg h]

/-- On a well-formed listing, no existence check raises. -/
theorem service_exists_total_of_wellFormed {env : Env} (h : listingWellFormed env)
    (svc : String) : ∃ b, service_exists env svc = Except.ok b := by
  by_cases hg : (run_command env listUnitFilesCmd true).1 ≠ 0 ∨
      (run_command env listUnitFilesCmd true).2.1 = ""
  · exact ⟨false, service_exists_of_fail svc hg⟩
  · rw [service_exists_of_ok svc hg]
    apply scanForTarget_total
    rcases h with h1 | h2 | h3
    · exact absurd (Or.inl h1) hg
    · exact absurd (Or.inr h2) hg
    · exact h3

/-- A check that returns `False` certifies that the listing is well formed:
`False` comes either from a failed or empty listing, or from a scan that
examined every line without raising. -/
theorem wellFormed_of_exists_false {env : Env} {svc : String}
    (h : service_exists env svc = Except.ok false) : listingWellFormed env := by
  by_cases hg : (run_command env listUnitFilesCmd true).1 ≠ 0 ∨
      (run_command env listUnitFilesCmd true).2.1 = ""
  · rcases hg with h1 | h2
    · exact Or.inl h1
    · exact Or.inr (Or.inl h2)
  · rw [service_exists_of_ok svc hg] at h
    exact Or.inr (Or.inr (scanForTarget_false_tokens h))

/-- Shape of a loop iteration whose existence check raises. -/
theorem stepService_of_error {env : Env} {su svc e : String}
    (h : service_exists env svc = Except.error e) :
    stepService env su svc =
      { outcome := Except.error e,
        invocations := [(listUnitFilesCmd, true)],
        prints := [checkingMsg svc] } := by
  rw [stepService, h]

/-- Shape of a loop iteration for a service reported absent. -/
theorem stepService_of_false {env : Env} {su svc : String}
    (h : service_exists env svc = Except.ok false) :
    stepService env su svc =
      { outcome := Except.ok (),
        invocations := [(listUnitFilesCmd, true)],
        prints := [checkingMsg svc, notFoundMsg svc] } := by
  rw [stepService, h]

/-- Shape of a loop iteration for a service reported present. -/
theorem stepService_of_true {env : Env} {su svc : String}
    (h : service_exists env svc = Except.ok true) :
    stepService env su svc =
      { outcome := Except.ok (),
        invocations := [(listUnitFilesCmd, true),
                        (stopCmd su svc, false),
                        (disableCmd su svc, false)],
        prints := [checkingMsg svc, existsMsg svc,
                   stopReport svc (run_command env (stopCmd su svc) false),
                   disableReport svc (run_command env (disableCmd su svc) false)] } := by
  rw [stepService, h]

/-- An iteration whose existence check returns finishes normally. -/
theorem stepService_outcome_ok {env : Env} {su svc : String} {b : Bool}
    (h : service_exists env svc = Except.ok b) :
    (stepService env su svc).outcome = Except.ok () := by
  cases b
  · rw [stepService_of_false h]
  · rw [stepService_of_true h]

/-- Every iteration prints its header line. -/
theorem checkingMsg_mem_step (env : Env) (su svc : String) :
    checkingMsg svc ∈ (stepService env su svc).prints := by
  rcases hse : service_exists env svc with e | b
  · rw [stepService_of_error hse]
    simp
  · cases b
    · rw [stepService_of_false hse]
      simp
    · rw [stepService_of_true hse]
      simp

/-- Every invocation of an iteration is the listing, the iteration's stop
command, or the iteration's disable command. -/
theorem stepService_invs_cases {env : Env} {su s : String} {inv : String × Bool}
    (h : inv ∈ (stepService env su s).invocations) :
    inv = (listUnitFilesCmd, true) ∨ inv = (stopCmd su s, false) ∨
      inv = (disableCmd su s, false) := by
  rcases hse : service_exists env s with e | b
  · rw [stepService_of_error hse] at h
    simp at h
    exact Or.inl h
  · cases b
    · rw [stepService_of_false hse] at h
      simp at h
      exact Or.inl h
    · rw [stepService_of_true hse] at h
      simpa using h

/-- A present service's own iteration runs its stop command exactly once. -/
theorem countOcc_stop_step_self {env : Env} {su svc : String}
    (h : service_exists env svc = Except.ok true) :
    countOcc (stopCmd su svc, false) (stepService env su svc).invocations = 1 := by
  rw [stepService_of_true h]
  have h1 : (listUnitFilesCmd, true) ≠ (stopCmd su svc, false) := by
    intro he
    exact Bool.noConfusion (congrArg Prod.snd he)
  have h2 : (disableCmd su svc, false) ≠ (stopCmd su svc, false) := by
    intro he
    exact stopCmd_ne_disableCmd su svc svc (congrArg Prod.fst he).symm
  simp [countOcc, h1, h2]

/-- An absent service's own iteration runs no stop command. -/
theorem countOcc_stop_step_absent {env : Env} {su svc : String}
    (h : service_exists env svc = Except.ok false) :
    countOcc (stopCmd su svc, false) (stepService env su svc).invocations = 0 := by
  rw [stepService_of_false h]
  have h1 : (listUnitFilesCmd, true) ≠ (stopCmd su svc, false) := by
    intro he
    exact Bool.noConfusion (congrArg Prod.snd he)
  simp [countOcc, h1]

/-- Another service's iteration never runs this service's stop command. -/
theorem countOcc_stop_step_other {env : Env} {su svc s : String} (hne : s ≠ svc) :
    countOcc (stopCmd su svc, false) (stepService env su s).invocations = 0 := by
  have h1 : (listUnitFilesCmd, true) ≠ (stopCmd su svc, false) := by
    intro he
    exact Bool.noConfusion (congrArg Prod.snd he)
  have h2 : (stopCmd su s, false) ≠ (stopCmd su svc, false) := by
    intro he
    exact hne (stopCmd_inj (congrArg Prod.fst he))
  have h3 : (disableCmd su s, false) ≠ (stopCmd su svc, false) := by
    intro he
    exact stopCmd_ne_disableCmd su svc s (congrArg Prod.fst he).symm
  rcases hse : service_exists env s with e | b
  · rw [stepService_of_error hse]
    simp [countOcc, h1]
  · cases b
    · rw [stepService_of_false hse]
      simp [countOcc, h1]
    · rw [stepService_of_true hse]
      simp [countOcc, h1, h2, h3]

/-- A present service's own iteration runs its disable command exactly once. -/
theorem countOcc_disable_step_self {env : Env} {su svc : String}
    (h : service_exists env svc = Except.ok true) :
    countOcc (disableCmd su svc, false) (stepService env su svc).invocations = 1 := by
  rw [stepService_of_true h]
  have h1 : (listUnitFilesCmd, true) ≠ (disableCmd su svc, false) := by
    intro he
    exact Bool.noConfusion (congrArg Prod.snd he)
  have h2 : (stopCmd su svc, false) ≠ (disableCmd su svc, false) := by
    intro he
    exact stopCmd_ne_disableCmd su svc svc (congrArg Prod.fst he)
  simp [countOcc, h1, h2]

/-- An absent service's own iteration runs no disable command. -/
theorem countOcc_disable_step_absent {env : Env} {su svc : String}
    (h : service_exists env svc = Except.ok false) :
    countOcc (disableCmd su svc, false) (stepService env su svc).invocations = 0 := by
  rw [stepService_of_false h]
  have h1 : (listUnitFilesCmd, true) ≠ (disableCmd su svc, false) := by
    intro he
    exact Bool.noConfusion (congrArg Prod.snd he)
  simp [countOcc, h1]

/-- Another service's iteration never runs this service's disable command. -/
theorem countOcc_disable_step_other {env : Env} {su svc s : String} (hne : s ≠ svc) :
    countOcc (disableCmd su svc, false) (stepService env su s).invocations = 0 := by
  have h1 : (listUnitFilesCmd, true) ≠ (disableCmd su svc, false) := by
    intro he
    exact Bool.noConfusion (congrArg Prod.snd he)
  have h2 : (disableCmd su s, false) ≠ (disableCmd su svc, false) := by
    intro he
    exact hne (disableCmd_inj (congrArg Prod.fst he))
  have h3 : (stopCmd su s, false) ≠ (disableCmd su svc, false) := by
    intro he
    exact stopCmd_ne_disableCmd su s svc (congrArg Prod.fst he)
  rcases hse : service_exists env s with e | b
  · rw [stepService_of_error hse]
    simp [countOcc, h1]
  · cases b
    · rw [stepService_of_false hse]
      simp [countOcc, h1]
    · rw [stepService_of_true hse]
      simp [countOcc, h1, h2, h3]

/-- When every iteration finishes normally, the loop visits every service in
order, concatenates their invocations and prints, appends the summary line and
exits zero. -/
theorem mainLoop_all_ok {env : Env} {su : String} :
    ∀ {l : List String}, (∀ s ∈ l, (stepService env su s).outcome = Except.ok ()) →
      mainLoop env su l =
        { outcome := MainOutcome.exitZero,
          invocations := (l.map fun s => (stepService env su s).invocations).flatten,
          prints := (l.map fun s => (stepService env su s).prints).flatten ++ [allProcessedMsg] } := by
  intro l
  induction l with
  | nil => intro _; rfl
  | cons s rest ih =>
    intro h
    have hs : (stepService env su s).outcome = Except.ok () :=
      h s (List.mem_cons_self s rest)
    have ihv := ih fun x hx => h x (List.mem_cons_of_mem s hx)
    simp only [mainLoop, hs, ihv, List.map_cons, List.flatten_cons, List.append_assoc]

/-- Every invocation the loop makes is the listing or a stop/disable command
of one of the visited services, whatever the environment does. -/
theorem mainLoop_invs_cases {env : Env} {su : String} :
    ∀ {l : List String} {inv : String × Bool},
      inv ∈ (mainLoop env su l).invocations →
      inv = (listUnitFilesCmd, true) ∨
        ∃ s ∈ l, inv = (stopCmd su s, false) ∨ inv = (disableCmd su s, false) := by
  intro l
  induction l with
  | nil =>
    intro inv h
    cases h
  | cons s rest ih =>
    intro inv h
    rcases hso : (stepService env su s).outcome with e | u
    · simp only [mainLoop, hso] at h
      rcases stepService_invs_cases h with h1 | h2 | h3
      · exact Or.inl h1
      · exact Or.inr ⟨s, List.mem_cons_self s rest, Or.inl h2⟩
      · exact Or.inr ⟨s, List.mem_cons_self s rest, Or.inr h3⟩
    · simp only [mainLoop, hso] at h
      rcases List.mem_append.mp h with h1 | h2
      · rcases stepService_invs_cases h1 with ha | hb | hc
        · exact Or.inl ha
        · exact Or.inr ⟨s, List.mem_cons_self s rest, Or.inl hb⟩
        · exact Or.inr ⟨s, List.mem_cons_self s rest, Or.inr hc⟩
      · rcases ih h2 with ha | ⟨x, hx, hxe⟩
        · exact Or.inl ha
        · exact Or.inr ⟨x, List.mem_cons_of_mem s hx, hxe⟩

/-- When `systemctl` is available, `main` is the loop over `SERVICES`. -/
theorem main_eq_loop {env : Env} (hA : env.systemctlAvailable = true) :
    main env = mainLoop env (sudoOf env) SERVICES := by
  rw [main, have_systemctl, hA]
  rfl

/-- When `systemctl` is missing, `main` raises `SystemExit(1)` after a single
console line, with no subprocess invocation. -/
theorem main_of_no_systemctl {env : Env} (hA : env.systemctlAvailable = false) :
    main env =
      { outcome := MainOutcome.systemExit 1,
        invocations := [],
        prints := [noSystemctlMsg] } := by
  rw [main, have_systemctl, hA]
  rfl

/-- The `SERVICES` list has no duplicate names. -/
theorem services_nodup : SERVICES.Nodup := by decide

/-- C8: `run_command` is total at its interface: a completed child yields its
exit code with the stripped outputs, and an exception from the subprocess
machinery is caught and yields exit code 1, empty stdout and the exception
message as stderr; no exception propagates. -/
theorem c8_run_command_total (env : Env) (cmd : String) (sh : Bool) :
    (∀ r, env.subproc cmd sh = SubprocOutcome.completed r →
      run_command env cmd sh = (r.returncode, pyStrip r.stdout, pyStrip r.stderr)) ∧
    (∀ msg, env.subproc cmd sh = SubprocOutcome.raised msg →
      run_command env cmd sh = (1, "", msg)) := by
  constructor
  · intro r h
    rw [run_command, h]
  · intro msg h
    rw [run_command, h]

/-- C8 witness: in the environment whose subprocess machinery always raises
`boom`, a stop command returns `(1, "", "boom")`. -/
theorem c8_witness : run_command envRaise (stopCmd "" "ssh") false = (1, "", "boom") :=
  (c8_run_command_total envRaise (stopCmd "" "ssh") false).2 "boom" rfl

/-- C9: `service_exists` is not total over listing outputs: in `envCrash` the
listing succeeds with stdout whose stripped text has a whitespace-only
internal line, `line.split()[0]` raises `IndexError`, and the program exits
nonzero even though `systemctl` is available. -/
theorem c9_whitespace_line_crash :
    envCrash.systemctlAvailable = true ∧
    (∃ line ∈ pySplitlines (run_command envCrash listUnitFilesCmd true).2.1,
      pySplit line = []) ∧
    service_exists envCrash "vsftpd" = Except.error "IndexError: list index out of range" ∧
    processExitCode (main envCrash).outcome ≠ 0 := by decide

/-- C3 counterexample: in `envCrash`, `systemctl` is available yet the process
exits nonzero, so a nonzero exit does not imply that `systemctl` is missing. -/
theorem c3_counterexample :
    envCrash.systemctlAvailable = true ∧ processExitCode (main envCrash).outcome ≠ 0 := by
  decide

/-- C3 amended: provided the listing is well formed (failed, empty, or with no
whitespace-only line in its stripped stdout), the process exits nonzero if and
only if the `systemctl` binary is unavailable. -/
theorem c3_exit_nonzero_iff_no_systemctl (env : Env) (hWF : listingWellFormed env) :
    (processExitCode (main env).outcome ≠ 0 ↔ env.systemctlAvailable = false) := by
  cases hA : env.systemctlAvailable
  · rw [main_of_no_systemctl hA]
    simp [processExitCode]
  · have hsteps : ∀ s ∈ SERVICES, (stepService env (sudoOf env) s).outcome = Except.ok () := by
      intro s _
      rcases service_exists_total_of_wellFormed hWF s with ⟨b, hb⟩
      exact stepService_outcome_ok hb
    rw [main_eq_loop hA, mainLoop_all_ok hsteps]
    simp [processExitCode]

/-- C3 witness: `envOneService` has a well-formed listing, and there the exit
status is zero exactly because `systemctl` is available. -/
theorem c3_witness :
    listingWellFormed envOneService ∧
    (processExitCode (main envOneService).outcome ≠ 0 ↔
      envOneService.systemctlAvailable = false) :=
  ⟨by decide, c3_exit_nonzero_iff_no_systemctl envOneService (by decide)⟩

/-- C7: every subprocess invocation of a run is the `systemctl
list-unit-files` query or a `systemctl stop` / `systemctl disable` command
(prefixed with the run's sudo string) for a name in `SERVICES`; in this model
the only other effect is the list of printed console lines. -/
theorem c7_only_systemctl_invocations (env : Env) (inv : String × Bool)
    (h : inv ∈ (main env).invocations) :
    inv = (listUnitFilesCmd, true) ∨
      ∃ svc ∈ SERVICES, inv = (stopCmd (sudoOf env) svc, false) ∨
        inv = (disableCmd (sudoOf env) svc, false) := by
  cases hA : env.systemctlAvailable
  · rw [main_of_no_systemctl hA] at h
    cases h
  · rw [main_eq_loop hA] at h
    exact mainLoop_invs_cases h

/-- C7 witness: the listing invocation occurs in the `envAllFail` run and is
of the allowed shape. -/
theorem c7_witness :
    ((listUnitFilesCmd, true) ∈ (main envAllFail).invocations) ∧
    ((listUnitFilesCmd, true) = (listUnitFilesCmd, true) ∨
      ∃ svc ∈ SERVICES, (listUnitFilesCmd, true) = (stopCmd (sudoOf envAllFail) svc, false) ∨
        (listUnitFilesCmd, true) = (disableCmd (sudoOf envAllFail) svc, false)) :=
  ⟨by decide, c7_only_systemctl_invocations envAllFail (listUnitFilesCmd, true) (by decide)⟩

/-- C10: a failed or empty unit-file listing is indistinguishable from
absence: every existence check returns `False` (its stderr is never
examined), and with `systemctl` available the run completes normally,
reports every service as not found, and makes no invocation other than the
listing query (in particular no stop or disable). -/
theorem c10_listing_failure_like_absence (env : Env)
    (hFail : (run_command env listUnitFilesCmd true).1 ≠ 0 ∨
             (run_command env listUnitFilesCmd true).2.1 = "") :
    (∀ svc, service_exists env svc = Except.ok false) ∧
    (env.systemctlAvailable = true →
      (main env).outcome = MainOutcome.exitZero ∧
      (∀ svc ∈ SERVICES, notFoundMsg svc ∈ (main env).prints) ∧
      (∀ inv ∈ (main env).invocations, inv = (listUnitFilesCmd, true))) := by
  have hall : ∀ svc, service_exists env svc = Except.ok false :=
    fun svc => service_exists_of_fail svc hFail
  refine ⟨hall, ?_⟩
  intro hA
  have hsteps : ∀ s ∈ SERVICES, (stepService env (sudoOf env) s).outcome = Except.ok () :=
    fun s _ => stepService_outcome_ok (hall s)
  rw [main_eq_loop hA, mainLoop_all_ok hsteps]
  refine ⟨rfl, ?_, ?_⟩
  · intro svc hm
    apply List.mem_append_left
    apply List.mem_flatten.mpr
    refine ⟨(stepService env (sudoOf env) svc).prints, List.mem_map_of_mem _ hm, ?_⟩
    rw [stepService_of_false (hall svc)]
    simp
  · intro inv hinv
    rcases List.mem_flatten.mp hinv with ⟨lst, hlst, hmem⟩
    rcases List.mem_map.mp hlst with ⟨s, hs, hfs⟩
    rw [← hfs, stepService_of_false (hall s)] at hmem
    simpa using hmem

/-- C10 witness: in `envAllFail` the listing fails with exit code 1, so every
check returns `False`, the run completes, every service is reported missing
and only the listing query is invoked. -/
theorem c10_witness :
    ((run_command envAllFail listUnitFilesCmd true).1 ≠ 0 ∨
     (run_command envAllFail listUnitFilesCmd true).2.1 = "") ∧
    ((∀ svc, service_exists envAllFail svc = Except.ok false) ∧
     (envAllFail.systemctlAvailable = true →
       (main envAllFail).outcome = MainOutcome.exitZero ∧
       (∀ svc ∈ SERVICES, notFoundMsg svc ∈ (main envAllFail).prints) ∧
       (∀ inv ∈ (main envAllFail).invocations, inv = (listUnitFilesCmd, true)))) :=
  ⟨Or.inl (by decide),
   c10_listing_failure_like_absence envAllFail (Or.inl (by decide))⟩

/-- C6 counterexample: in `envLateMatch` the listing succeeds with nonempty
stdout and some line has `ssh.service` as first token, yet `service_exists`
does not return `True` — it raises on the earlier whitespace-only line. -/
theorem c6_counterexample :
    (run_command envLateMatch listUnitFilesCmd true).1 = 0 ∧
    (run_command envLateMatch listUnitFilesCmd true).2.1 ≠ "" ∧
    (∃ line ∈ pySplitlines (run_command envLateMatch listUnitFilesCmd true).2.1,
      firstToken line = some ("ssh" ++ ".service")) ∧
    service_exists envLateMatch "ssh" ≠ Except.ok true := by decide

/-- C6 amended: `service_exists(svc)` returns `True` iff the listing exits 0
with nonempty stripped stdout and some line has `<svc>.service` as its first
whitespace-delimited token with every earlier line bearing a first token (a
whitespace-only line before the first match raises instead of returning);
detection never consults the service's running state. -/
theorem c6_service_exists_true_iff (env : Env) (svc : String) :
    service_exists env svc = Except.ok true ↔
      ((run_command env listUnitFilesCmd true).1 = 0 ∧
       (run_command env listUnitFilesCmd true).2.1 ≠ "" ∧
       ∃ pre line post,
         pySplitlines (run_command env listUnitFilesCmd true).2.1 = pre ++ line :: post ∧
         (∀ l ∈ pre, pySplit l ≠ []) ∧
         firstToken line = some (svc ++ ".service")) := by
  by_cases hg : (run_command env listUnitFilesCmd true).1 ≠ 0 ∨
      (run_command env listUnitFilesCmd true).2.1 = ""
  · rw [service_exists_of_fail svc hg]
    constructor
    · intro h
      exact Bool.noConfusion (Except.ok.inj h)
    · rintro ⟨h0, hne, _⟩
      rcases hg with h1 | h2
      · exact absurd h0 h1
      · exact absurd h2 hne
  · have h0 : (run_command env listUnitFilesCmd true).1 = 0 := by
      by_contra hc
      exact hg (Or.inl hc)
    have hne : (run_command env listUnitFilesCmd true).2.1 ≠ "" := by
      intro hc
      exact hg (Or.inr hc)
    rw [service_exists_of_ok svc hg]
    constructor
    · intro h
      rcases scanForTarget_true_split h with ⟨pre, line, post, hdec, hpre, hft⟩
      exact ⟨h0, hne, pre, line, post, hdec, hpre, hft⟩
    · rintro ⟨_, _, pre, line, post, hdec, hpre, hft⟩
      rw [hdec]
      exact scanForTarget_true_of_split pre post hpre hft

/-- C4: external command failures are non-fatal.  A failed listing makes the
iteration report the service as missing and finish normally; with the service
present, a failed stop is reported on the console and the disable command is
still invoked; a failed disable is likewise reported; and an iteration that
finishes normally hands control to the rest of the loop, keeping all of its
output.  (A raised exception is subsumed: `run_command` converts it to exit
code 1, see `c8_run_command_total`.) -/
theorem c4_failures_are_nonfatal (env : Env) (su svc : String) :
    ((run_command env listUnitFilesCmd true).1 ≠ 0 →
      (stepService env su svc).outcome = Except.ok () ∧
      notFoundMsg svc ∈ (stepService env su svc).prints) ∧
    (service_exists env svc = Except.ok true →
      (run_command env (stopCmd su svc) false).1 ≠ 0 →
      (stepService env su svc).outcome = Except.ok () ∧
      couldNotStopMsg svc
        (pyOr (run_command env (stopCmd su svc) false).2.2
              (run_command env (stopCmd su svc) false).2.1) ∈
        (stepService env su svc).prints ∧
      (disableCmd su svc, false) ∈ (stepService env su svc).invocations) ∧
    (service_exists env svc = Except.ok true →
      (run_command env (disableCmd su svc) false).1 ≠ 0 →
      (stepService env su svc).outcome = Except.ok () ∧
      couldNotDisableMsg svc
        (pyOr (run_command env (disableCmd su svc) false).2.2
              (run_command env (disableCmd su svc) false).2.1) ∈
        (stepService env su svc).prints) ∧
    (∀ rest : List String, (stepService env su svc).outcome = Except.ok () →
      (mainLoop env su (svc :: rest)).outcome = (mainLoop env su rest).outcome ∧
      ∀ p ∈ (mainLoop env su rest).prints, p ∈ (mainLoop env su (svc :: rest)).prints) := by
  refine ⟨?_, ?_, ?_, ?_⟩
  · intro hc
    have hf : service_exists env svc = Except.ok false :=
      service_exists_of_fail svc (Or.inl hc)
    rw [stepService_of_false hf]
    exact ⟨rfl, by simp⟩
  · intro hex hc
    rw [stepService_of_true hex]
    refine ⟨rfl, ?_, by simp⟩
    simp [stopReport, hc]
  · intro hex hc
    rw [stepService_of_true hex]
    refine ⟨rfl, ?_⟩
    simp [disableReport, hc]
  · intro rest h
    constructor
    · simp only [mainLoop, h]
    · intro p hp
      simp only [mainLoop, h]
      exact List.mem_append_right _ hp

/-- C4 witness: in `envStopFail` the service `vsftpd` is present, its stop
command fails, the failure line is printed, the disable command is still
invoked, and the iteration finishes normally. -/
theorem c4_witness :
    service_exists envStopFail "vsftpd" = Except.ok true ∧
    (run_command envStopFail (stopCmd "" "vsftpd") false).1 ≠ 0 ∧
    ((stepService envStopFail "" "vsftpd").outcome = Except.ok () ∧
     couldNotStopMsg "vsftpd"
       (pyOr (run_command envStopFail (stopCmd "" "vsftpd") false).2.2
             (run_command envStopFail (stopCmd "" "vsftpd") false).2.1) ∈
       (stepService envStopFail "" "vsftpd").prints ∧
     (disableCmd "" "vsftpd", false) ∈ (stepService envStopFail "" "vsftpd").invocations) :=
  ⟨by decide, by decide,
   (c4_failures_are_nonfatal envStopFail "" "vsftpd").2.1 (by decide) (by decide)⟩

/-- C2: a service reported absent is skipped: its stop and disable commands
are never invoked in the whole run, its not-found line is printed, and the
loop goes on — the run completes normally with every name in `SERVICES`
checked.  (A `False` check certifies the listing cannot raise on any name.) -/
theorem c2_absent_service_skipped (env : Env) (svc : String)
    (hA : env.systemctlAvailable = true)
    (hm : svc ∈ SERVICES)
    (hex : service_exists env svc = Except.ok false) :
    (stopCmd (sudoOf env) svc, false) ∉ (main env).invocations ∧
    (disableCmd (sudoOf env) svc, false) ∉ (main env).invocations ∧
    notFoundMsg svc ∈ (main env).prints ∧
    (main env).outcome = MainOutcome.exitZero ∧
    (∀ s ∈ SERVICES, checkingMsg s ∈ (main env).prints) := by
  have hWF := wellFormed_of_exists_false hex
  have hsteps : ∀ s ∈ SERVICES, (stepService env (sudoOf env) s).outcome = Except.ok () := by
    intro s _
    rcases service_exists_total_of_wellFormed hWF s with ⟨b, hb⟩
    exact stepService_outcome_ok hb
  rw [main_eq_loop hA, mainLoop_all_ok hsteps]
  refine ⟨?_, ?_, ?_, rfl, ?_⟩
  · apply not_mem_of_countOcc_eq_zero
    rw [countOcc_flatten, List.map_map]
    apply map_sum_eq_zero
    intro s hs
    by_cases he : s = svc
    · subst he
      exact countOcc_stop_step_absent hex
    · exact countOcc_stop_step_other he
  · apply not_mem_of_countOcc_eq_zero
    rw [countOcc_flatten, List.map_map]
    apply map_sum_eq_zero
    intro s hs
    by_cases he : s = svc
    · subst he
      exact countOcc_disable_step_absent hex
    · exact countOcc_disable_step_other he
  · apply List.mem_append_left
    apply List.mem_flatten.mpr
    refine ⟨(stepService env (sudoOf env) svc).prints, List.mem_map_of_mem _ hm, ?_⟩
    rw [stepService_of_false hex]
    simp
  · intro s hs
    apply List.mem_append_left
    exact List.mem_flatten.mpr
      ⟨(stepService env (sudoOf env) s).prints, List.mem_map_of_mem _ hs,
       checkingMsg_mem_step env (sudoOf env) s⟩

/-- C2 witness: in `envAllFail` the check for `vsftpd` returns `False`, no
stop or disable for it is ever invoked, and the run completes with every
service checked. -/
theorem c2_witness :
    envAllFail.systemctlAvailable = true ∧ ("vsftpd" ∈ SERVICES) ∧
    service_exists envAllFail "vsftpd" = Except.ok false ∧
    ((stopCmd (sudoOf envAllFail) "vsftpd", false) ∉ (main envAllFail).invocations ∧
     (disableCmd (sudoOf envAllFail) "vsftpd", false) ∉ (main envAllFail).invocations ∧
     notFoundMsg "vsftpd" ∈ (main envAllFail).prints ∧
     (main envAllFail).outcome = MainOutcome.exitZero ∧
     (∀ s ∈ SERVICES, checkingMsg s ∈ (main envAllFail).prints)) :=
  ⟨rfl, by decide, by decide,
   c2_absent_service_skipped envAllFail "vsftpd" rfl (by decide) (by decide)⟩

/-- C1 counterexample: in `envSkip` the check for `ssh` returns `True`, yet
the run issues no `systemctl stop ssh` at all — checking the earlier name
`vsftpd` hits the whitespace-only listing line and the run aborts first. -/
theorem c1_counterexample :
    ("ssh" ∈ SERVICES) ∧
    service_exists envSkip "ssh" = Except.ok true ∧
    envSkip.systemctlAvailable = true ∧
    countOcc (stopCmd (sudoOf envSkip) "ssh", false) (main envSkip).invocations = 0 := by
  decide

/-- C1 amended: provided the listing is well formed (so no existence check
raises and the loop reaches every name), a present service receives exactly
one stop invocation and exactly one disable invocation, the disable
immediately after the stop; nothing constrains the stop command's exit code,
so the disable is issued regardless of it. -/
theorem c1_present_service_stopped_then_disabled (env : Env) (svc : String)
    (hA : env.systemctlAvailable = true)
    (hWF : listingWellFormed env)
    (hm : svc ∈ SERVICES)
    (hex : service_exists env svc = Except.ok true) :
    countOcc (stopCmd (sudoOf env) svc, false) (main env).invocations = 1 ∧
    countOcc (disableCmd (sudoOf env) svc, false) (main env).invocations = 1 ∧
    ∃ pre post, (main env).invocations =
      pre ++ (stopCmd (sudoOf env) svc, false) ::
        (disableCmd (sudoOf env) svc, false) :: post := by
  have hsteps : ∀ s ∈ SERVICES, (stepService env (sudoOf env) s).outcome = Except.ok () := by
    intro s _
    rcases service_exists_total_of_wellFormed hWF s with ⟨b, hb⟩
    exact stepService_outcome_ok hb
  rw [main_eq_loop hA, mainLoop_all_ok hsteps]
  refine ⟨?_, ?_, ?_⟩
  · rw [countOcc_flatten, List.map_map]
    apply map_sum_eq_one services_nodup hm
    · exact countOcc_stop_step_self hex
    · intro s hs hne
      exact countOcc_stop_step_other hne
  · rw [countOcc_flatten, List.map_map]
    apply map_sum_eq_one services_nodup hm
    · exact countOcc_disable_step_self hex
    · intro s hs hne
      exact countOcc_disable_step_other hne
  · rcases List.append_of_mem hm with ⟨l1, l2, hdec⟩
    rw [hdec, List.map_append, List.map_cons, List.flatten_append, List.flatten_cons,
      stepService_of_true hex]
    refine ⟨(l1.map fun s => (stepService env (sudoOf env) s).invocations).flatten ++
        [(listUnitFilesCmd, true)],
      (l2.map fun s => (stepService env (sudoOf env) s).invocations).flatten, ?_⟩
    simp

/-- C1 witness: in `envOneService` the listing is well formed, `vsftpd` is
present, and the run stops it exactly once and then disables it exactly
once. -/
theorem c1_witness :
    envOneService.systemctlAvailable = true ∧
    listingWellFormed envOneService ∧
    ("vsftpd" ∈ SERVICES) ∧
    service_exists envOneService "vsftpd" = Except.ok true ∧
    (countOcc (stopCmd (sudoOf envOneService) "vsftpd", false)
        (main envOneService).invocations = 1 ∧
     countOcc (disableCmd (sudoOf envOneService) "vsftpd", false)
        (main envOneService).invocations = 1 ∧
     ∃ pre post, (main envOneService).invocations =
       pre ++ (stopCmd (sudoOf envOneService) "vsftpd", false) ::
         (disableCmd (sudoOf envOneService) "vsftpd", false) :: post) :=
  ⟨rfl, by decide, by decide, by decide,
   c1_present_service_stopped_then_disabled envOneService "vsftpd" rfl (by decide)
     (by decide) (by decide)⟩

/-- C5: re-running against services that are already stopped and disabled is
idempotent in outcome: with a well-formed listing, even when every stop and
every disable invocation returns a nonzero exit code, no error halts
execution — every service is still checked and the run completes normally. -/
theorem c5_rerun_idempotent (env : Env)
    (hA : env.systemctlAvailable = true)
    (hWF : listingWellFormed env)
    (_hFail : ∀ svc ∈ SERVICES,
      (run_command env (stopCmd (sudoOf env) svc) false).1 ≠ 0 ∧
      (run_command env (disableCmd (sudoOf env) svc) false).1 ≠ 0) :
    (main env).outcome = MainOutcome.exitZero ∧
    (∀ svc ∈ SERVICES, checkingMsg svc ∈ (main env).prints) ∧
    allProcessedMsg ∈ (main env).prints := by
  have hsteps : ∀ s ∈ SERVICES, (stepService env (sudoOf env) s).outcome = Except.ok () := by
    intro s _
    rcases service_exists_total_of_wellFormed hWF s with ⟨b, hb⟩
    exact stepService_outcome_ok hb
  rw [main_eq_loop hA, mainLoop_all_ok hsteps]
  refine ⟨rfl, ?_, by simp⟩
  intro s hs
  apply List.mem_append_left
  exact List.mem_flatten.mpr
    ⟨(stepService env (sudoOf env) s).prints, List.mem_map_of_mem _ hs,
     checkingMsg_mem_step env (sudoOf env) s⟩

/-- C5 witness: in `envOneService` every stop and disable invocation fails
with exit code 1, yet the run completes normally with every service
checked. -/
theorem c5_witness :
    envOneService.systemctlAvailable = true ∧
    listingWellFormed envOneService ∧
    (∀ svc ∈ SERVICES,
      (run_command envOneService (stopCmd (sudoOf envOneService) svc) false).1 ≠ 0 ∧
      (run_command envOneService (disableCmd (sudoOf envOneService) svc) false).1 ≠ 0) ∧
    ((main envOneService).outcome = MainOutcome.exitZero ∧
     (∀ svc ∈ SERVICES, checkingMsg svc ∈ (main envOneService).prints) ∧
     allProcessedMsg ∈ (main envOneService).prints) :=
  ⟨rfl, by decide, by decide,
   c5_rerun_idempotent envOneService rfl (by decide) (by decide)⟩

end DisableServices
